import Mathlib

/-!
Verification of the agent-runtime core of the qt-chatbot-agent repository.

Texts are modelled as lists of characters (QString). Qt integer arithmetic
is modelled with Nat / Int; all quantities involved stay far below 2^31, so
no wrap-around is modelled. Network replies and JSON parse outcomes are
modelled as inductive data fed to the embedded handler functions.
-/

namespace QtAgent

/-- A text, the shallow embedding of QString. -/
abbrev Str := List Char

/-! ## Basic string operations (QString methods used by the core) -/

/-- QChar::isSpace restricted to the ASCII range: space and the control
characters 0x09 to 0x0D.  All inputs considered in this development are
ASCII, so the Unicode separator classes are not modelled. -/
def isQtSpace (c : Char) : Bool :=
  c = ' ' || c = '\t' || c = '\n' || c = '\x0b' || c = '\x0c' || c = '\r'

/-- Helper for substring search: does the pattern start the haystack? -/
def strStarts : Str → Str → Bool
  | _, [] => true
  | [], _ :: _ => false
  | a :: s, b :: p => a = b && strStarts s p

/-- QString::contains(QString): substring containment. -/
def strContains : Str → Str → Bool
  | [], pat => pat.isEmpty
  | a :: s, pat => strStarts (a :: s) pat || strContains s pat

/-- QString::toLower, character by character. -/
def lowerStr (s : Str) : Str := s.map Char.toLower

/-- QString::trimmed: strip leading and trailing whitespace. -/
def trimStr (s : Str) : Str :=
  ((s.dropWhile isQtSpace).reverse.dropWhile isQtSpace).reverse

/-! ## Token estimation (LLMClient::estimateTokens) -/

/-- LLMClient::estimateTokens: zero for the empty text, otherwise integer
division of the character count by 4 plus integer division of the count of
space and newline characters by 10. -/
def estimateTokens (s : Str) : Nat :=
  if s.isEmpty then 0
  else s.length / 4 + (s.count ' ' + s.count '\n') / 10

/-- The token estimate exactly as the specification words it: the ceiling of
charCount/4 plus the floor of whitespaceCount/10, where whitespaceCount
counts all whitespace characters. -/
def specEstimateTokens (s : Str) : Nat :=
  (s.length + 3) / 4 + (s.countP isQtSpace) / 10

/-! ## Capability detection and the pending-request queue
(LLMClient::handleModelInfoReply, processPendingRequests, sendPrompt,
sendPromptWithTools) -/

/-- The string literal native. -/
def nativeFmt : Str := String.toList "native"

/-- The string literal prompt (the prompt-injected dialect). -/
def promptFmt : Str := String.toList "prompt"

/-- The string literal unknown. -/
def unknownFmt : Str := String.toList "unknown"

/-- Outcome of the /api/show metadata request as seen by
handleModelInfoReply: a transport failure, an unparseable or non-object
reply, or a parsed object carrying the modelfile text, the template text and
the serialized details object. -/
inductive ModelInfoReply where
  | transportError
  | badJson
  | parsed (modelfile templateStr details : Str)

/-- The tool-support test of handleModelInfoReply: the modelfile and the
template are lowercased; the modelfile is searched for tool and
function_call, the template for tool and function, and the serialized
details text for tool and function (the details text is not lowercased). -/
def hasToolSupport (modelfile templateStr details : Str) : Bool :=
  strContains (lowerStr modelfile) (String.toList "tool") ||
  strContains (lowerStr modelfile) (String.toList "function_call") ||
  strContains (lowerStr templateStr) (String.toList "tool") ||
  strContains (lowerStr templateStr) (String.toList "function") ||
  strContains details (String.toList "tool") ||
  strContains details (String.toList "function")

/-- A queued request (LLMClient::PendingRequest): the prompt, whether it was
issued through sendPromptWithTools, and the retrieval context. The tools
array is irrelevant to the queueing discipline and is not modelled. -/
structure PendingReq where
  prompt : Str
  withTools : Bool
  context : Str
deriving DecidableEq

/-- The part of the LLMClient state that drives queueing and capability
detection, plus a log of the requests actually issued to the backend
(oldest first), standing for the network sends performed by sendPrompt and
sendPromptWithTools once capabilities are known. -/
structure ClientState where
  capabilitiesDetected : Bool
  toolCallFormat : Str
  pendingRequests : List PendingReq
  issued : List PendingReq
deriving DecidableEq

/-- sendPrompt / sendPromptWithTools: an empty prompt is rejected with an
error; while capabilities are undetected the request is appended to the
pending queue; otherwise it is issued to the backend. -/
def sendReq (s : ClientState) (r : PendingReq) : ClientState :=
  if r.prompt.isEmpty then s
  else if !s.capabilitiesDetected then
    { s with pendingRequests := s.pendingRequests ++ [r] }
  else
    { s with issued := s.issued ++ [r] }

/-- LLMClient::processPendingRequests: take the queued requests, clear the
queue, and re-issue each one in order through sendPrompt or
sendPromptWithTools. -/
def processPendingRequests (s : ClientState) : ClientState :=
  if s.pendingRequests.isEmpty then s
  else
    (s.pendingRequests).foldl sendReq { s with pendingRequests := [] }

/-- LLMClient::handleModelInfoReply: a transport error or an unparseable
reply sets the format to unknown and returns at once; a parsed reply sets
the format from hasToolSupport, marks capabilities detected, and drains the
pending queue. -/
def handleModelInfoReply (s : ClientState) (r : ModelInfoReply) : ClientState :=
  match r with
  | .transportError => { s with toolCallFormat := unknownFmt }
  | .badJson => { s with toolCallFormat := unknownFmt }
  | .parsed mf tp dt =>
    let fmt := if hasToolSupport mf tp dt then nativeFmt else promptFmt
    processPendingRequests
      { s with toolCallFormat := fmt, capabilitiesDetected := true }

/-! ## Prompt-injection tool-call heuristic (LLMClient::processToolCalls,
the branch taken when neither tool_call marker occurs in the response) -/

/-- The parsed top level of the trimmed response, as QJsonObject presents
it: the list of (distinct) top-level keys, and the value that
obj at key name coerced to a string, which is empty when the key is absent
or its value is not a JSON string. -/
structure RespObj where
  keys : List Str
  nameVal : Str
deriving DecidableEq

/-- An entry of m_currentTools as inspected by the heuristic: the tool name
and the keys of its parameters object. -/
structure ToolSpec where
  name : Str
  paramKeys : List Str
deriving DecidableEq

/-- The majority-vote loop of processToolCalls: walk the supplied tools in
order; for each, count how many of the response object top-level keys occur
among the tool parameter keys; accept the first tool with a positive count
of at least 70 percent of the response keys.  The C++ comparison
matchCount >= responseKeys.size() * 0.7 computes in double precision; for
the integer operand sizes reachable here it coincides with
10 * matchCount >= 7 * responseKeys.size, the form used below. -/
def firstHeuristicTool : List ToolSpec → List Str → Option Str
  | [], _ => none
  | t :: ts, keys =>
    if 0 < keys.countP (fun k => t.paramKeys.contains k) ∧
        7 * keys.length ≤ 10 * keys.countP (fun k => t.paramKeys.contains k) then
      some t.name
    else firstHeuristicTool ts keys

/-- The no-marker branch of processToolCalls: parsed is the JSON parse of
the entire trimmed response (none when the trimmed response does not both
start with an opening brace and end with a closing brace, or does not parse
as a JSON object).  If the object carries both a name key and a parameters
key and the name string is non-empty, that call is accepted; otherwise the
majority-vote loop over the supplied tools decides.  The result is the name
of the detected tool, none when no tool call is detected. -/
def toolCallHeuristic (parsed : Option RespObj) (tools : List ToolSpec) :
    Option Str :=
  match parsed with
  | none => none
  | some obj =>
    if (obj.keys.contains (String.toList "name") &&
        obj.keys.contains (String.toList "parameters")) &&
        !obj.nameVal.isEmpty then
      some obj.nameVal
    else firstHeuristicTool tools obj.keys

/-- The acceptance condition exactly as the claim words it: the object has
a non-empty name field and a parameters field, or for some supplied tool at
least 70 percent of the object top-level keys match that tool parameter
names. -/
def claimHeuristicCond (obj : RespObj) (tools : List ToolSpec) : Prop :=
  (String.toList "name" ∈ obj.keys ∧ String.toList "parameters" ∈ obj.keys ∧
    obj.nameVal ≠ []) ∨
  ∃ t ∈ tools,
    7 * obj.keys.length ≤ 10 * obj.keys.countP (fun k => t.paramKeys.contains k)

/-- The calculator tool of the spec example. -/
def calcTool : ToolSpec :=
  ⟨String.toList "calculator",
   [String.toList "operation", String.toList "a", String.toList "b"]⟩

/-! ## Context-window pruning (LLMClient::pruneMessageHistoryForContext)

A history message is modelled by its content text; the pruning decision
reads nothing else of the message object. -/

/-- The remaining token budget: 80 percent of the context window (the C++
static_cast of contextWindowSize * 0.8, which equals the floor for every
representable window size) minus the estimated system-prompt tokens, the
estimated current-message tokens and the fixed 200-token tool overhead. -/
def pruneBudget (cw : Nat) (sys cur : Str) : Int :=
  ((4 * cw / 5 : Nat) : Int) - (estimateTokens sys : Int) -
    (estimateTokens cur : Int) - 200

/-- The backwards walk of pruneMessageHistoryForContext, given the history
newest first: keep a message if its estimated tokens plus the fixed
20-token per-message overhead still fit, stop at the first that does not. -/
def keepRecent (remaining : Int) : Int → List Str → List Str
  | _, [] => []
  | used, m :: older =>
    if remaining < used + ((estimateTokens m : Int) + 20) then []
    else m :: keepRecent remaining (used + ((estimateTokens m : Int) + 20)) older

/-- LLMClient::pruneMessageHistoryForContext: empty history when the budget
is exhausted, otherwise the kept suffix of the history (oldest first, as
stored). -/
def pruneMessageHistoryForContext (cw : Nat) (sys cur : Str)
    (history : List Str) : List Str :=
  if pruneBudget cw sys cur ≤ 0 then []
  else (keepRecent (pruneBudget cw sys cur) 0 history.reverse).reverse

/-! ## Retry controller (LLMClient::handleStreamingFinished error path,
shouldRetry, retryRequest) -/

/-- The QNetworkReply error categories distinguished by shouldRetry: the
eleven retryable transient-network codes, and representative members of the
default (terminal) branch. -/
inductive NetError where
  | connectionRefused
  | remoteHostClosed
  | hostNotFound
  | timeout
  | operationCanceled
  | temporaryNetworkFailure
  | networkSessionFailed
  | backgroundRequestNotAllowed
  | unknownNetwork
  | unknownProxy
  | unknownContent
  | contentNotFound
  | authenticationRequired
  | protocolFailure
  | internalServerError
deriving DecidableEq

/-- LLMClient::shouldRetry: the switch over the error code. -/
def shouldRetry : NetError → Bool
  | .connectionRefused | .remoteHostClosed | .hostNotFound | .timeout
  | .operationCanceled | .temporaryNetworkFailure | .networkSessionFailed
  | .backgroundRequestNotAllowed | .unknownNetwork | .unknownProxy
  | .unknownContent => true
  | _ => false

/-- The mutable retry bookkeeping of LLMClient: the current retry count,
the configured maximum and base delay, and the verbatim body of the last
request sent. -/
structure RetryState where
  currentRetryCount : Nat
  maxRetries : Nat
  retryDelay : Nat
  lastRequestData : Str
deriving DecidableEq

/-- Observable effects of the retry path, in emission order. -/
inductive RetryEvent where
  | notifyRetry (attempt maxAttempts : Nat)
  | waitDelay (ms : Nat)
  | resend (payload : Str)
  | terminalError
deriving DecidableEq

/-- LLMClient::retryRequest, fired when the backoff timer expires: error
out if there is no stored payload, otherwise resend it verbatim. -/
def retryRequest (s : RetryState) : List RetryEvent :=
  if s.lastRequestData.isEmpty then [.terminalError]
  else [.resend s.lastRequestData]

/-- The network-error path of LLMClient::handleStreamingFinished: on a
retryable error with retries left, increment the retry count, emit the
(attempt, maxAttempts) notification, start the backoff delay of
retryDelay * 2^(attempt-1) milliseconds (the C++ expression
m_retryDelay * (1 << (m_currentRetryCount - 1)); the retry count never
exceeds the configured maximum, default 3, so the shift stays far below
the int width), and let the timer fire retryRequest; otherwise surface a
terminal error.  The returned list carries the events in order. -/
def handleStreamingError (s : RetryState) (err : NetError) :
    RetryState × List RetryEvent :=
  if shouldRetry err = true ∧ s.currentRetryCount < s.maxRetries then
    ({ s with currentRetryCount := s.currentRetryCount + 1 },
     [.notifyRetry (s.currentRetryCount + 1) s.maxRetries,
      .waitDelay (s.retryDelay * 2 ^ s.currentRetryCount)] ++
       retryRequest { s with currentRetryCount := s.currentRetryCount + 1 })
  else (s, [.terminalError])

/-- A sequence of completed-with-error events processed one after the
other. -/
def runFailures : RetryState → List NetError → RetryState × List RetryEvent
  | s, [] => (s, [])
  | s, e :: es =>
    ((runFailures (handleStreamingError s e).1 es).1,
     (handleStreamingError s e).2 ++
       (runFailures (handleStreamingError s e).1 es).2)

/-- Recognizer for the retry notification, used to count attempts. -/
def isRetryNotification : RetryEvent → Bool
  | .notifyRetry _ _ => true
  | _ => false

/-! ## MCP tool registry and dispatcher (MCPHandler.cpp)

Tool arguments and results are opaque texts here; a Local invoker is a
function from arguments to Except, where the error branch stands for a
thrown C++ exception. -/

/-- MCPToolType: the three transport variants. -/
inductive MCPToolType where
  | Local
  | HTTP
  | SSE
deriving DecidableEq

/-- MCPTool: name, description, variant, the Local invoker (none models a
null std::function) and the network URL. -/
structure MCPTool where
  name : Str
  description : Str
  toolType : MCPToolType
  function : Option (Str → Except Str Str)
  networkUrl : Str

/-- MCPTool::isValid: an empty name or description is invalid; a Local
tool must carry an invoker; HTTP and SSE tools must carry a non-empty
URL. -/
def MCPTool.isValid (t : MCPTool) : Bool :=
  if t.name.isEmpty || t.description.isEmpty then false
  else
    match t.toolType with
    | .Local => t.function.isSome
    | .HTTP => !t.networkUrl.isEmpty
    | .SSE => !t.networkUrl.isEmpty

/-- The registry m_tools (QMap keyed by tool name), as an association
list. -/
abbrev Registry := List (Str × MCPTool)

/-- Lookup by name (QMap::contains / operator[]). -/
def regLookup : Registry → Str → Option MCPTool
  | [], _ => none
  | (k, t) :: r, n => if k = n then some t else regLookup r n

/-- Keyed insert (QMap operator[] assignment): replaces the binding of an
existing key, appends a new one. -/
def regInsert : Registry → Str → MCPTool → Registry
  | [], n, t => [(n, t)]
  | (k, u) :: r, n, t =>
    if k = n then (n, t) :: r else (k, u) :: regInsert r n t

/-- MCPHandler::registerTool: reject an invalid tool and leave the
registry unchanged, otherwise bind the name (silently replacing). -/
def registerTool (reg : Registry) (t : MCPTool) : Bool × Registry :=
  if t.isValid then (true, regInsert reg t.name t) else (false, reg)

/-- A demonstration Local invoker. -/
def demoInvoker : Str → Except Str Str := fun a => Except.ok a

/-- A Local tool with an invoker but an empty name: invalid. -/
def badLocalTool : MCPTool :=
  ⟨[], String.toList "echoes", .Local, some demoInvoker, []⟩

/-- A well-formed HTTP tool. -/
def goodHttpTool : MCPTool :=
  ⟨String.toList "t1", String.toList "a tool", .HTTP, none,
   String.toList "http://localhost/mcp"⟩

/-! ## Tool execution (MCPHandler::executeToolCall, executeLocalTool,
generateToolCallId) -/

/-- Terminal outcome of one tool call, delivered through the asynchronous
channel (the toolCallCompleted / toolCallFailed signals). -/
inductive ToolEvent where
  | completed (callId toolName result : Str)
  | failed (callId toolName error : Str)
deriving DecidableEq

/-- MCPHandler::generateToolCallId: the first 8 characters of a fresh
UUID rendered without braces (the UUID text, always 36 characters, is an
input here). -/
def generateToolCallId (uuid : Str) : Str := uuid.take 8

/-- The not-found failure message, Tool not found: name. -/
def notFoundMsg (toolName : Str) : Str :=
  String.toList "Tool not found: " ++ toolName

/-- MCPHandler::executeLocalTool: run the invoker inside try/catch; a
normal return completes the call, a thrown exception (the Except error
branch) becomes a failure message, and a null invoker (calling an empty
std::function raises std::bad_function_call, landing in the catch-all)
becomes the unknown-error failure. -/
def executeLocalTool (t : MCPTool) (callId toolName params : Str) :
    ToolEvent :=
  match t.function with
  | some f =>
    match f params with
    | .ok r => .completed callId toolName r
    | .error e =>
      .failed callId toolName (String.toList "Tool execution error: " ++ e)
  | none =>
    .failed callId toolName
      (String.toList "Unknown error during tool execution")

/-- MCPHandler::executeToolCall: an unregistered name yields a fresh call
id and an immediate asynchronous failure; otherwise a fresh id is issued
and dispatch follows the variant.  HTTP and SSE dispatch only start a
network exchange, producing no synchronous event; their later completions
arrive through the same asynchronous channel and are not modelled here. -/
def executeToolCall (reg : Registry) (uuid : Str) (toolName params : Str) :
    Str × List ToolEvent :=
  match regLookup reg toolName with
  | none =>
    (generateToolCallId uuid,
     [.failed (generateToolCallId uuid) toolName (notFoundMsg toolName)])
  | some t =>
    match t.toolType with
    | .Local =>
      (generateToolCallId uuid,
       [executeLocalTool t (generateToolCallId uuid) toolName params])
    | .HTTP => (generateToolCallId uuid, [])
    | .SSE => (generateToolCallId uuid, [])

/-! ## MCP discovery (MCPHandler::discoverAndRegisterServerTools)

Each of the two JSON-RPC round-trips is summarized by its observable
outcome.  A timed-out round-trip surfaces either as a transport error or
as an unparseable (empty) body, both covered below; the guard clauses for
an uninitialized network manager or an invalid URL precede any round-trip
and also return -1. -/

/-- One element of the tools array of the tools/list result: either not a
JSON object (skipped), or its name and description strings. -/
inductive ToolEntry where
  | notObject
  | entry (name description : Str)
deriving DecidableEq

/-- Observable outcome of one JSON-RPC round-trip: transport failure,
unparseable or non-object body, an object carrying an error field, or a
successful result (whose tools array only matters for tools/list). -/
inductive MCPReply where
  | transportError
  | badJson
  | rpcError
  | ok (tools : List ToolEntry)
deriving DecidableEq

/-- The HTTP tool built for a discovered entry: empty descriptions are
replaced by Tool from serverName, the invoker is null, the URL is the
server URL. -/
def discoveredTool (serverName serverUrl n d : Str) : MCPTool :=
  ⟨n, if d.isEmpty then String.toList "Tool from " ++ serverName else d,
   .HTTP, none, serverUrl⟩

/-- The registration loop over the discovered entries: non-object entries
and empty names are skipped; each remaining entry is registered and the
successes are counted. -/
def registerEntries (serverName serverUrl : Str) :
    Registry → List ToolEntry → Nat × Registry
  | reg, [] => (0, reg)
  | reg, .notObject :: es => registerEntries serverName serverUrl reg es
  | reg, .entry n d :: es =>
    if n.isEmpty then registerEntries serverName serverUrl reg es
    else
      ((registerEntries serverName serverUrl
          (registerTool reg (discoveredTool serverName serverUrl n d)).2 es).1 +
        (if (registerTool reg (discoveredTool serverName serverUrl n d)).1
          then 1 else 0),
       (registerEntries serverName serverUrl
          (registerTool reg (discoveredTool serverName serverUrl n d)).2 es).2)

/-- MCPHandler::discoverAndRegisterServerTools: any failure of either
round-trip (transport error, unparseable body, JSON-RPC error field)
aborts with -1; an empty tools array returns 0; otherwise the entries are
registered and the success count is returned. -/
def discoverAndRegisterServerTools (serverName serverUrl : Str)
    (initReply listReply : MCPReply) (reg : Registry) : Int × Registry :=
  match initReply with
  | .ok _ =>
    match listReply with
    | .ok tools =>
      if tools.isEmpty then (0, reg)
      else
        (((registerEntries serverName serverUrl reg tools).1 : Int),
         (registerEntries serverName serverUrl reg tools).2)
    | .transportError => (-1, reg)
    | .badJson => (-1, reg)
    | .rpcError => (-1, reg)
  | .transportError => (-1, reg)
  | .badJson => (-1, reg)
  | .rpcError => (-1, reg)

/-- A demonstration tools/list payload: two well-formed entries, one
non-object entry and one empty-named entry. -/
def demoEntries : List ToolEntry :=
  [ToolEntry.entry (String.toList "a") [], ToolEntry.notObject,
   ToolEntry.entry [] (String.toList "x"),
   ToolEntry.entry (String.toList "b") (String.toList "d")]

/-! ## Document chunking (RAGEngine::chunkText)

The loop state is the window start position; the loop runs while the
position is below the text length.  One iteration computes the window end
(with sentence and word back-off), extracts and trims the chunk, and
advances the position by windowEnd - overlap, resetting to windowEnd only
when that difference is negative. -/

/-- The character at an index (only ever consulted at guarded indices). -/
def charAt (s : Str) (i : Nat) : Char := s.getD i (Char.ofNat 0)

/-- Does the two-character sentence-boundary pattern (a terminator
followed by whitespace) match at index i?  (QRegExp [.!?]\s) -/
def isSentenceAt (s : Str) (i : Nat) : Bool :=
  decide (i + 1 < s.length) &&
  (charAt s i = '.' || charAt s i = '!' || charAt s i = '?') &&
  isQtSpace (charAt s (i + 1))

/-- Does the whitespace pattern match at index i?  (QRegExp \s) -/
def isSpaceAt (s : Str) (i : Nat) : Bool :=
  decide (i < s.length) && isQtSpace (charAt s i)

/-- QString::lastIndexOf with a regular expression: the greatest index at
most fromIdx where the pattern matches, -1 when there is none. -/
def lastIdxLe (p : Nat → Bool) : Nat → Int
  | 0 => if p 0 then 0 else -1
  | n + 1 => if p (n + 1) then ((n + 1 : Nat) : Int) else lastIdxLe p n

/-- The window end for one iteration of RAGEngine::chunkText: the
position plus the chunk size, clamped to the text length; when that falls
short of the text end, back off to the nearest preceding sentence
boundary after the position and within 100 characters, else to the
nearest preceding whitespace after the position, else keep the hard
cut. -/
def chunkEndAt (size : Nat) (text : Str) (pos : Nat) : Nat :=
  let ce := min (pos + size) text.length
  if ce < text.length then
    let sb := lastIdxLe (isSentenceAt text) ce
    if (pos : Int) < sb ∧ (ce : Int) - sb < 100 then (sb + 1).toNat
    else
      let wb := lastIdxLe (isSpaceAt text) ce
      if (pos : Int) < wb then wb.toNat else ce
  else ce

/-- The position update of one iteration: windowEnd - overlap, reset to
windowEnd when negative (the C++ if (position < 0) position = chunkEnd
clamp). -/
def nextPosition (size overlap : Nat) (text : Str) (pos : Nat) : Nat :=
  if chunkEndAt size text pos < overlap then chunkEndAt size text pos
  else chunkEndAt size text pos - overlap

/-- RAGEngine::chunkText as a fuel-indexed loop: none means the loop has
not finished within the given number of iterations.  An iteration
extracts the trimmed window text (QString::mid(position,
chunkEnd - position) trimmed), appends it when non-empty, and advances
the position. -/
def chunkTextFuel (size overlap : Nat) (text : Str) :
    Nat → Nat → Option (List Str)
  | 0, pos => if pos < text.length then none else some []
  | fuel + 1, pos =>
    if pos < text.length then
      match chunkTextFuel size overlap text fuel
          (nextPosition size overlap text pos) with
      | none => none
      | some rest =>
        some
          (if (trimStr ((text.drop pos).take
              (chunkEndAt size text pos - pos))).isEmpty then rest
           else trimStr ((text.drop pos).take
              (chunkEndAt size text pos - pos)) :: rest)
    else some []

/-! ## Theorems -/

theorem strStarts_iff (hay pat : Str) : strStarts hay pat = true ↔ pat <+: hay := by
  induction hay generalizing pat with
  | nil =>
    cases pat with
    | nil => simp [strStarts]
    | cons b p => simp [strStarts]
  | cons a s ih =>
    cases pat with
    | nil => simp [strStarts]
    | cons b p =>
      simp only [strStarts, Bool.and_eq_true, decide_eq_true_eq]
      constructor
      · rintro ⟨rfl, h⟩
        rcases (ih p).mp h with ⟨t, rfl⟩
        exact ⟨t, rfl⟩
      · rintro ⟨t, ht⟩
        cases ht
        exact ⟨rfl, (ih p).mpr ⟨t, rfl⟩⟩

theorem strContains_iff (hay pat : Str) : strContains hay pat = true ↔ pat <:+: hay := by
  induction hay with
  | nil =>
    cases pat with
    | nil => simp [strContains]
    | cons b p =>
      simp only [strContains, List.isEmpty_cons]
      constructor
      · intro h; cases h
      · intro h
        exact absurd (List.eq_nil_of_infix_nil h) (by simp)
  | cons a s ih =>
    simp only [strContains, Bool.or_eq_true, strStarts_iff, ih, List.infix_cons_iff]

/-- C3 counterexample: the code floors charCount/4 (the spec says ceiling),
and it counts only spaces and newlines (the spec says all whitespace).  On
the three-character text abc the code yields 0 while the spec formula yields
1; on twenty letters followed by twenty tabs the code yields 10 while the
spec formula yields 12. -/
theorem C3_counterexample :
    estimateTokens (String.toList "abc") ≠ specEstimateTokens (String.toList "abc") ∧
    estimateTokens (List.replicate 20 'a' ++ List.replicate 20 '\t') ≠
      specEstimateTokens (List.replicate 20 'a' ++ List.replicate 20 '\t') := by
  decide

/-- C3 (amended): for every text the token estimate equals
floor(charCount/4) + floor((spaceCount + newlineCount)/10), where spaceCount
and newlineCount count the space and newline characters respectively; in
particular the empty text estimates to 0. -/
theorem C3_estimate_formula (s : Str) :
    estimateTokens s = s.length / 4 + (s.count ' ' + s.count '\n') / 10 ∧
    estimateTokens [] = 0 := by
  refine ⟨?_, rfl⟩
  cases s with
  | nil => rfl
  | cons c t => rfl

theorem sendReq_detected (s : ClientState) (r : PendingReq)
    (hc : s.capabilitiesDetected = true) (hp : r.prompt ≠ []) :
    sendReq s r = { s with issued := s.issued ++ [r] } := by
  simp [sendReq, hc, List.isEmpty_iff, hp]

theorem foldl_sendReq_detected (l : List PendingReq) :
    ∀ s : ClientState, s.capabilitiesDetected = true →
      (∀ r ∈ l, r.prompt ≠ []) →
      l.foldl sendReq s = { s with issued := s.issued ++ l } := by
  induction l with
  | nil => intro s hc hp; simp
  | cons r t ih =>
    intro s hc hp
    have hr : r.prompt ≠ [] := hp r (by simp)
    rw [List.foldl_cons, sendReq_detected s r hc hr,
      ih { s with issued := s.issued ++ [r] } hc
        (fun x hx => hp x (by simp [hx]))]
    simp

theorem sendReq_fields (s : ClientState) (r : PendingReq) :
    (sendReq s r).capabilitiesDetected = s.capabilitiesDetected ∧
    (sendReq s r).toolCallFormat = s.toolCallFormat := by
  simp only [sendReq]
  split
  · exact ⟨rfl, rfl⟩
  · split
    · exact ⟨rfl, rfl⟩
    · exact ⟨rfl, rfl⟩

theorem foldl_sendReq_fields (l : List PendingReq) :
    ∀ s : ClientState,
      (l.foldl sendReq s).capabilitiesDetected = s.capabilitiesDetected ∧
      (l.foldl sendReq s).toolCallFormat = s.toolCallFormat := by
  induction l with
  | nil => intro s; exact ⟨rfl, rfl⟩
  | cons r t ih =>
    intro s
    rw [List.foldl_cons]
    rcases ih (sendReq s r) with ⟨h1, h2⟩
    rcases sendReq_fields s r with ⟨g1, g2⟩
    exact ⟨h1.trans g1, h2.trans g2⟩

/-- C2 counterexample: start from a client with undetected capabilities and
one queued request; let capability detection complete with a transport
failure (reported dialect unknown).  The pending queue is not drained and
nothing is re-issued, contradicting the claim that every completion of
detection, the unknown report included, replays the queue and leaves it
empty. -/
theorem C2_counterexample :
    (handleModelInfoReply
        ⟨false, unknownFmt, [⟨String.toList "hi", false, []⟩], []⟩
        .transportError).pendingRequests =
      [⟨String.toList "hi", false, []⟩] ∧
    (handleModelInfoReply
        ⟨false, unknownFmt, [⟨String.toList "hi", false, []⟩], []⟩
        .transportError).issued = [] := by
  exact ⟨rfl, rfl⟩

/-- C2 (amended): when capability detection completes with a parsed
metadata reply (dialect native or prompt-injected), every request queued
while detection was outstanding is re-issued exactly once, in FIFO arrival
order, and the pending queue is left empty; when detection completes with a
transport failure or an unparseable reply (dialect unknown) the queue is
left untouched and nothing is re-issued; no request is issued while
capabilities are still undetected.  The hypothesis that queued prompts are
non-empty holds invariantly, since sendPrompt and sendPromptWithTools
reject empty prompts before queueing. -/
theorem C2_pending_queue (s : ClientState) (mf tp dt : Str)
    (hc : s.capabilitiesDetected = false)
    (hp : ∀ r ∈ s.pendingRequests, r.prompt ≠ []) :
    (handleModelInfoReply s (.parsed mf tp dt)).pendingRequests = [] ∧
    (handleModelInfoReply s (.parsed mf tp dt)).issued =
      s.issued ++ s.pendingRequests ∧
    (handleModelInfoReply s .transportError).pendingRequests =
      s.pendingRequests ∧
    (handleModelInfoReply s .transportError).issued = s.issued ∧
    (handleModelInfoReply s .badJson).pendingRequests =
      s.pendingRequests ∧
    (handleModelInfoReply s .badJson).issued = s.issued ∧
    ∀ r : PendingReq, (sendReq s r).issued = s.issued := by
  refine ⟨?_, ?_, rfl, rfl, rfl, rfl, ?_⟩
  · simp only [handleModelInfoReply, processPendingRequests]
    split
    · next h => simpa using h
    · rw [foldl_sendReq_detected _ _ rfl (by simpa using hp)]
  · simp only [handleModelInfoReply, processPendingRequests]
    split
    · next h =>
      simp only [List.isEmpty_iff] at h
      simp [h]
    · rw [foldl_sendReq_detected _ _ rfl (by simpa using hp)]
  · intro r
    simp only [sendReq, hc]
    split
    · rfl
    · rfl

/-- C2 witness: a concrete client with two queued requests drains them in
arrival order when detection parses a reply, and keeps them untouched on a
transport failure and on an unparseable reply alike. -/
theorem C2_pending_queue_witness :
    (handleModelInfoReply
        ⟨false, unknownFmt,
          [⟨String.toList "a", false, []⟩, ⟨String.toList "b", true, []⟩], []⟩
        (.parsed [] [] [])).pendingRequests = [] ∧
    (handleModelInfoReply
        ⟨false, unknownFmt,
          [⟨String.toList "a", false, []⟩, ⟨String.toList "b", true, []⟩], []⟩
        (.parsed [] [] [])).issued =
      [] ++ [⟨String.toList "a", false, []⟩, ⟨String.toList "b", true, []⟩] ∧
    (handleModelInfoReply
        ⟨false, unknownFmt,
          [⟨String.toList "a", false, []⟩, ⟨String.toList "b", true, []⟩], []⟩
        .transportError).pendingRequests =
      [⟨String.toList "a", false, []⟩, ⟨String.toList "b", true, []⟩] ∧
    (handleModelInfoReply
        ⟨false, unknownFmt,
          [⟨String.toList "a", false, []⟩, ⟨String.toList "b", true, []⟩], []⟩
        .transportError).issued = [] ∧
    (handleModelInfoReply
        ⟨false, unknownFmt,
          [⟨String.toList "a", false, []⟩, ⟨String.toList "b", true, []⟩], []⟩
        .badJson).pendingRequests =
      [⟨String.toList "a", false, []⟩, ⟨String.toList "b", true, []⟩] ∧
    (handleModelInfoReply
        ⟨false, unknownFmt,
          [⟨String.toList "a", false, []⟩, ⟨String.toList "b", true, []⟩], []⟩
        .badJson).issued = [] ∧
    ∀ r : PendingReq,
      (sendReq ⟨false, unknownFmt,
        [⟨String.toList "a", false, []⟩, ⟨String.toList "b", true, []⟩], []⟩
        r).issued = [] :=
  C2_pending_queue _ [] [] [] rfl (by decide)

theorem processPendingRequests_format (s : ClientState) :
    (processPendingRequests s).toolCallFormat = s.toolCallFormat := by
  simp only [processPendingRequests]
  split
  · rfl
  · exact (foldl_sendReq_fields s.pendingRequests _).2

theorem hasToolSupport_iff (mf tp dt : Str) :
    hasToolSupport mf tp dt = true ↔
      (String.toList "tool" <:+: lowerStr mf ∨
       String.toList "function_call" <:+: lowerStr mf ∨
       String.toList "tool" <:+: lowerStr tp ∨
       String.toList "function" <:+: lowerStr tp ∨
       String.toList "tool" <:+: dt ∨
       String.toList "function" <:+: dt) := by
  simp only [hasToolSupport, Bool.or_eq_true, strContains_iff, or_assoc]

/-- C4 counterexample: a metadata reply whose modelfile text is exactly
function, with empty template and details.  The substring function occurs
in the modelfile, so the claim classifies the backend as native, but the
code checks the modelfile only for tool and function_call and reports the
prompt-injected dialect. -/
theorem C4_counterexample :
    (handleModelInfoReply ⟨false, unknownFmt, [], []⟩
        (.parsed (String.toList "function") [] [])).toolCallFormat =
      promptFmt ∧
    String.toList "function" <:+: String.toList "function" := by
  constructor
  · rfl
  · exact List.infix_refl _

/-- C4 (amended): a parsed metadata reply is classified native exactly when
the lowercased modelfile contains tool or function_call, or the lowercased
template contains tool or function, or the serialized details text contains
tool or function; otherwise the parsed reply yields the prompt-injected
dialect; a transport failure or an unparseable reply yields unknown. -/
theorem C4_dialect (s : ClientState) (mf tp dt : Str) :
    ((handleModelInfoReply s (.parsed mf tp dt)).toolCallFormat = nativeFmt ↔
      (String.toList "tool" <:+: lowerStr mf ∨
       String.toList "function_call" <:+: lowerStr mf ∨
       String.toList "tool" <:+: lowerStr tp ∨
       String.toList "function" <:+: lowerStr tp ∨
       String.toList "tool" <:+: dt ∨
       String.toList "function" <:+: dt)) ∧
    ((handleModelInfoReply s (.parsed mf tp dt)).toolCallFormat = nativeFmt ∨
     (handleModelInfoReply s (.parsed mf tp dt)).toolCallFormat = promptFmt) ∧
    (handleModelInfoReply s .transportError).toolCallFormat = unknownFmt ∧
    (handleModelInfoReply s .badJson).toolCallFormat = unknownFmt := by
  have hfmt : (handleModelInfoReply s (.parsed mf tp dt)).toolCallFormat =
      (if hasToolSupport mf tp dt then nativeFmt else promptFmt) := by
    simp only [handleModelInfoReply]
    exact processPendingRequests_format _
  refine ⟨?_, ?_, rfl, rfl⟩
  · rw [hfmt, ← hasToolSupport_iff]
    cases h : hasToolSupport mf tp dt with
    | false =>
      simp only [h, Bool.false_eq_true, if_false]
      simp [show promptFmt ≠ nativeFmt by decide]
    | true =>
      simp [h]
  · rw [hfmt]
    cases h : hasToolSupport mf tp dt with
    | false => right; simp [h]
    | true => left; simp [h]

theorem firstHeuristicTool_isSome (ts : List ToolSpec) (keys : List Str) :
    (firstHeuristicTool ts keys).isSome = true ↔
      ∃ t ∈ ts, 0 < keys.countP (fun k => t.paramKeys.contains k) ∧
        7 * keys.length ≤ 10 * keys.countP (fun k => t.paramKeys.contains k) := by
  induction ts with
  | nil => simp [firstHeuristicTool]
  | cons t ts ih =>
    simp only [firstHeuristicTool]
    split
    · next h =>
      simp only [Option.isSome_some, true_iff]
      exact ⟨t, by simp, h⟩
    · next h =>
      rw [ih]
      constructor
      · rintro ⟨u, hu, hc⟩
        exact ⟨u, by simp [hu], hc⟩
      · rintro ⟨u, hu, hc⟩
        rcases List.mem_cons.mp hu with rfl | hu2
        · exact absurd hc h
        · exact ⟨u, hu2, hc⟩

theorem firstHeuristicTool_first (keys : List Str) (t : ToolSpec)
    (ts2 : List ToolSpec) :
    ∀ ts1 : List ToolSpec,
      (∀ u ∈ ts1, ¬(0 < keys.countP (fun k => u.paramKeys.contains k) ∧
        7 * keys.length ≤ 10 * keys.countP (fun k => u.paramKeys.contains k))) →
      (0 < keys.countP (fun k => t.paramKeys.contains k) ∧
        7 * keys.length ≤ 10 * keys.countP (fun k => t.paramKeys.contains k)) →
      firstHeuristicTool (ts1 ++ t :: ts2) keys = some t.name := by
  intro ts1
  induction ts1 with
  | nil =>
    intro _ ht
    simp only [List.nil_append, firstHeuristicTool]
    rw [if_pos ht]
  | cons u us ih =>
    intro hu ht
    simp only [List.cons_append, firstHeuristicTool]
    rw [if_neg (hu u (by simp))]
    exact ih (fun v hv => hu v (by simp [hv])) ht

/-- C5 counterexample: the trimmed response is the empty JSON object.  It
parses as a JSON object with no top-level keys, so the worded condition
holds vacuously for the registered calculator tool (at least 70 percent of
zero keys match), yet the code detects no tool call because it additionally
requires a positive match count. -/
theorem C5_counterexample :
    toolCallHeuristic (some ⟨[], []⟩) [calcTool] = none ∧
    claimHeuristicCond ⟨[], []⟩ [calcTool] := by
  refine ⟨rfl, Or.inr ⟨calcTool, by simp, by simp⟩⟩

/-- C5 (amended): with the majority-vote clause strengthened to require a
positive match count, the detection is exact: a no-marker response is
detected as a tool call iff it parses as a JSON object and either carries
non-empty name plus parameters fields, or some supplied tool has a positive
match count covering at least 70 percent of the object keys; the first such
tool in registration order is chosen; and the bare-object calculator
response of the spec example is detected as a call to calculator. -/
theorem C5_heuristic :
    (∀ (parsed : Option RespObj) (tools : List ToolSpec),
      (toolCallHeuristic parsed tools).isSome ↔
        ∃ obj, parsed = some obj ∧
          ((String.toList "name" ∈ obj.keys ∧
            String.toList "parameters" ∈ obj.keys ∧ obj.nameVal ≠ []) ∨
           ∃ t ∈ tools,
             0 < obj.keys.countP (fun k => t.paramKeys.contains k) ∧
             7 * obj.keys.length ≤
               10 * obj.keys.countP (fun k => t.paramKeys.contains k))) ∧
    (∀ (obj : RespObj) (ts1 ts2 : List ToolSpec) (t : ToolSpec),
      ¬(String.toList "name" ∈ obj.keys ∧
        String.toList "parameters" ∈ obj.keys ∧ obj.nameVal ≠ []) →
      (∀ u ∈ ts1,
        ¬(0 < obj.keys.countP (fun k => u.paramKeys.contains k) ∧
          7 * obj.keys.length ≤
            10 * obj.keys.countP (fun k => u.paramKeys.contains k))) →
      (0 < obj.keys.countP (fun k => t.paramKeys.contains k) ∧
        7 * obj.keys.length ≤
          10 * obj.keys.countP (fun k => t.paramKeys.contains k)) →
      toolCallHeuristic (some obj) (ts1 ++ t :: ts2) = some t.name) ∧
    toolCallHeuristic
      (some ⟨[String.toList "name", String.toList "parameters"],
        String.toList "calculator"⟩) [calcTool] =
      some (String.toList "calculator") := by
  refine ⟨?_, ?_, by decide⟩
  · intro parsed tools
    cases parsed with
    | none => simp [toolCallHeuristic]
    | some obj =>
      simp only [toolCallHeuristic]
      split
      · next h =>
        simp only [Bool.and_eq_true, List.elem_eq_mem, decide_eq_true_eq, Bool.not_eq_true',
          List.isEmpty_eq_false] at h
        simp only [Option.isSome_some, true_iff]
        exact ⟨obj, rfl, Or.inl ⟨h.1.1, h.1.2, h.2⟩⟩
      · next h =>
        simp only [Bool.and_eq_true, List.elem_eq_mem, decide_eq_true_eq, Bool.not_eq_true',
          List.isEmpty_eq_false, not_and] at h
        rw [firstHeuristicTool_isSome]
        constructor
        · rintro ⟨t, ht, hc⟩
          exact ⟨obj, rfl, Or.inr ⟨t, ht, hc⟩⟩
        · rintro ⟨obj2, heq, hcond⟩
          simp only [Option.some.injEq] at heq
          subst heq
          rcases hcond with hA | hB
          · exact absurd hA.2.2 (h ⟨hA.1, hA.2.1⟩)
          · exact hB
  · intro obj ts1 ts2 t hA hts1 ht
    simp only [toolCallHeuristic]
    rw [if_neg (by
      simp only [Bool.and_eq_true, List.elem_eq_mem, decide_eq_true_eq, Bool.not_eq_true',
        List.isEmpty_eq_false]
      intro hc
      exact hA ⟨hc.1.1, hc.1.2, hc.2⟩)]
    exact firstHeuristicTool_first obj.keys t ts2 ts1 hts1 ht

/-- C5 witness: a bare response object whose single key operation matches
the calculator parameters is routed to calculator by the majority-vote
clause. -/
theorem C5_heuristic_witness :
    toolCallHeuristic (some ⟨[String.toList "operation"], []⟩) [calcTool] =
      some calcTool.name :=
  C5_heuristic.2.1 ⟨[String.toList "operation"], []⟩ [] [] calcTool
    (by decide) (by decide) (by decide)

theorem keepRecent_takes_front (remaining : Int) :
    ∀ (used : Int) (l : List Str), keepRecent remaining used l <+: l := by
  intro used l
  induction l generalizing used with
  | nil => exact ⟨[], rfl⟩
  | cons m older ih =>
    simp only [keepRecent]
    split
    · exact ⟨m :: older, rfl⟩
    · rcases ih (used + ((estimateTokens m : Int) + 20)) with ⟨t, ht⟩
      exact ⟨t, by rw [List.cons_append, ht]⟩

/-- C6: the pruned history is a contiguous suffix of the stored history
(order-preserving, no gaps, messages kept whole), and it is empty whenever
80 percent of the context window does not exceed the estimated
system-prompt tokens plus the estimated current-message tokens plus the
fixed 200-token tool overhead. -/
theorem C6_prune_suffix (cw : Nat) (sys cur : Str) (history : List Str) :
    pruneMessageHistoryForContext cw sys cur history <:+ history ∧
    ((4 * cw : Int) ≤ 5 * ((estimateTokens sys : Int) +
        (estimateTokens cur : Int) + 200) →
      pruneMessageHistoryForContext cw sys cur history = []) := by
  constructor
  · simp only [pruneMessageHistoryForContext]
    split
    · exact ⟨history, by simp⟩
    · have h := keepRecent_takes_front (pruneBudget cw sys cur) 0 history.reverse
      have h2 := List.reverse_suffix.mpr h
      rwa [List.reverse_reverse] at h2
  · intro hle
    have hdiv : (4 * cw / 5 : Nat) ≤
        estimateTokens sys + estimateTokens cur + 200 := by
      have h5 : (4 * cw : Nat) ≤ 5 * (estimateTokens sys + estimateTokens cur + 200) := by
        exact_mod_cast hle
      calc 4 * cw / 5 ≤ 5 * (estimateTokens sys + estimateTokens cur + 200) / 5 :=
            Nat.div_le_div_right h5
        _ = estimateTokens sys + estimateTokens cur + 200 := by
            rw [Nat.mul_div_cancel_left _ (by norm_num)]
    have hbudget : pruneBudget cw sys cur ≤ 0 := by
      simp only [pruneBudget]
      have : ((4 * cw / 5 : Nat) : Int) ≤
          (estimateTokens sys : Int) + (estimateTokens cur : Int) + 200 := by
        exact_mod_cast hdiv
      omega
    simp only [pruneMessageHistoryForContext, if_pos hbudget]

/-- C6 witness: with a context window of 100 and a long system prompt the
budget is exhausted and the pruned history is empty; the suffix property
holds at the same input. -/
theorem C6_prune_suffix_witness :
    pruneMessageHistoryForContext 100 [] [] [String.toList "m1"] <:+
      [String.toList "m1"] ∧
    pruneMessageHistoryForContext 100 [] [] [String.toList "m1"] = [] :=
  ⟨(C6_prune_suffix 100 [] [] [String.toList "m1"]).1,
   (C6_prune_suffix 100 [] [] [String.toList "m1"]).2 (by decide)⟩

theorem retryRequest_no_notification (s : RetryState) :
    (retryRequest s).countP isRetryNotification = 0 := by
  simp only [retryRequest]
  split
  · rfl
  · rfl

theorem runFailures_notification_bound (es : List NetError) :
    ∀ s : RetryState,
      ((runFailures s es).2.countP isRetryNotification) ≤
        s.maxRetries - s.currentRetryCount := by
  induction es with
  | nil => intro s; simp [runFailures]
  | cons e es ih =>
    intro s
    simp only [runFailures, List.countP_append]
    by_cases h : shouldRetry e = true ∧ s.currentRetryCount < s.maxRetries
    · simp only [handleStreamingError, if_pos h, List.countP_cons,
        List.countP_append, List.countP_nil, retryRequest_no_notification,
        isRetryNotification, Bool.false_eq_true, if_false, if_true]
      have hb : ((runFailures
          { s with currentRetryCount := s.currentRetryCount + 1 } es).2.countP
            isRetryNotification) ≤
          s.maxRetries - (s.currentRetryCount + 1) :=
        ih { s with currentRetryCount := s.currentRetryCount + 1 }
      omega
    · simp only [handleStreamingError, if_neg h, List.countP_cons,
        List.countP_nil, isRetryNotification, Bool.false_eq_true, if_false]
      have hb := ih s
      omega

/-- C7: on a retryable failure of attempt n (n = previous count + 1,
starting at 1) with retries left and a stored payload, the client emits the
(attempt, maxAttempts) notification first, then waits exactly
retryDelay * 2^(n-1) milliseconds, then resends the verbatim last payload;
a non-retryable failure or an exhausted retry budget yields a terminal
error instead; and across any sequence of failures at most
maxRetries - currentRetryCount further retries are ever attempted. -/
theorem C7_retry_backoff (s : RetryState) (err : NetError)
    (hr : shouldRetry err = true)
    (hc : s.currentRetryCount < s.maxRetries)
    (hp : s.lastRequestData ≠ []) :
    handleStreamingError s err =
      ({ s with currentRetryCount := s.currentRetryCount + 1 },
       [.notifyRetry (s.currentRetryCount + 1) s.maxRetries,
        .waitDelay (s.retryDelay * 2 ^ s.currentRetryCount),
        .resend s.lastRequestData]) ∧
    (∀ (s2 : RetryState) (e2 : NetError),
      ¬(shouldRetry e2 = true ∧ s2.currentRetryCount < s2.maxRetries) →
      handleStreamingError s2 e2 = (s2, [.terminalError])) ∧
    (∀ (s2 : RetryState) (es : List NetError),
      ((runFailures s2 es).2.countP isRetryNotification) ≤
        s2.maxRetries - s2.currentRetryCount) := by
  refine ⟨?_, ?_, ?_⟩
  · simp only [handleStreamingError, if_pos (And.intro hr hc), retryRequest,
      List.isEmpty_iff, if_neg hp]
    rfl
  · intro s2 e2 h2
    simp only [handleStreamingError, if_neg h2]
  · intro s2 es
    exact runFailures_notification_bound es s2

/-- C7 witness: a fresh request (count 0, maximum 3, base delay 1000)
failing with a timeout retries once after 1000 ms, resending the stored
payload, and the notification count over that single failure is at most
3. -/
theorem C7_retry_backoff_witness :
    handleStreamingError ⟨0, 3, 1000, String.toList "body"⟩ .timeout =
      (⟨1, 3, 1000, String.toList "body"⟩,
       [.notifyRetry 1 3, .waitDelay 1000, .resend (String.toList "body")]) ∧
    handleStreamingError ⟨3, 3, 1000, String.toList "body"⟩ .timeout =
      (⟨3, 3, 1000, String.toList "body"⟩, [.terminalError]) ∧
    ((runFailures ⟨0, 3, 1000, String.toList "body"⟩ [.timeout]).2.countP
      isRetryNotification) ≤ 3 := by
  have h := C7_retry_backoff ⟨0, 3, 1000, String.toList "body"⟩ .timeout
    rfl (by decide) (by decide)
  refine ⟨?_, ?_, ?_⟩
  · have h1 := h.1
    simpa using h1
  · exact h.2.1 ⟨3, 3, 1000, String.toList "body"⟩ .timeout (by decide)
  · exact h.2.2 ⟨0, 3, 1000, String.toList "body"⟩ [.timeout]

theorem regLookup_insert_self (reg : Registry) (n : Str) (t : MCPTool) :
    regLookup (regInsert reg n t) n = some t := by
  induction reg with
  | nil => simp [regInsert, regLookup]
  | cons p r ih =>
    obtain ⟨k, u⟩ := p
    simp only [regInsert]
    split
    · simp [regLookup]
    · next h => simp [regLookup, h, ih]

theorem regLookup_insert_ne (reg : Registry) (n m : Str) (t : MCPTool)
    (hne : m ≠ n) : regLookup (regInsert reg n t) m = regLookup reg m := by
  have hnm : ¬(n = m) := fun h => hne h.symm
  induction reg with
  | nil =>
    simp only [regInsert, regLookup]
    rw [if_neg hnm]
  | cons p r ih =>
    obtain ⟨k, u⟩ := p
    simp only [regInsert]
    split
    · next h =>
      subst h
      simp only [regLookup]
      rw [if_neg hnm, if_neg hnm]
    · simp only [regLookup, ih]

/-- C10: registration returns false and leaves the registry unchanged
whenever the name or the description is empty, whatever the variant,
invoker or URL; for a definition the code deems valid it returns true and
binds the name, replacing any existing binding and leaving every other
name untouched. -/
theorem C10_register_validation (reg : Registry) (t : MCPTool) :
    ((t.name = [] ∨ t.description = []) → registerTool reg t = (false, reg)) ∧
    (t.isValid = true →
      (registerTool reg t).1 = true ∧
      regLookup (registerTool reg t).2 t.name = some t ∧
      ∀ n : Str, n ≠ t.name →
        regLookup (registerTool reg t).2 n = regLookup reg n) := by
  constructor
  · intro h
    have hv : t.isValid = false := by
      simp only [MCPTool.isValid]
      rw [if_pos]
      rcases h with h | h <;> simp [h]
    simp [registerTool, hv]
  · intro hv
    simp only [registerTool]
    rw [if_pos hv]
    exact ⟨rfl, regLookup_insert_self reg t.name t,
      fun n hn => regLookup_insert_ne reg t.name n t hn⟩

/-- C10 witness: the empty-named Local tool is rejected on the empty
registry; the HTTP tool registers, is bound under its name, and other
names stay unbound. -/
theorem C10_register_validation_witness :
    registerTool [] badLocalTool = (false, []) ∧
    (registerTool [] goodHttpTool).1 = true ∧
    regLookup (registerTool [] goodHttpTool).2 (String.toList "t1") =
      some goodHttpTool ∧
    regLookup (registerTool [] goodHttpTool).2 (String.toList "t2") =
      regLookup [] (String.toList "t2") :=
  ⟨(C10_register_validation [] badLocalTool).1 (Or.inl rfl),
   ((C10_register_validation [] goodHttpTool).2 rfl).1,
   ((C10_register_validation [] goodHttpTool).2 rfl).2.1,
   ((C10_register_validation [] goodHttpTool).2 rfl).2.2
     (String.toList "t2") (by decide)⟩

/-- C8: executing an unregistered tool name returns a non-empty call id at
once and reports a single asynchronous failure whose message contains
not found; and a Local invoker fault is converted to a failure event
rather than escaping the dispatcher (the embedding is a total function:
nothing is thrown to the caller of executeToolCall). -/
theorem C8_execute_not_found (reg : Registry) (uuid toolName params : Str)
    (hmiss : regLookup reg toolName = none) (hu : uuid ≠ []) :
    (executeToolCall reg uuid toolName params).1 ≠ [] ∧
    (executeToolCall reg uuid toolName params).2 =
      [ToolEvent.failed (executeToolCall reg uuid toolName params).1 toolName
        (notFoundMsg toolName)] ∧
    String.toList "not found" <:+: notFoundMsg toolName ∧
    (∀ (t : MCPTool) (f : Str → Except Str Str) (cid e : Str),
      t.function = some f → f params = Except.error e →
      executeLocalTool t cid toolName params =
        ToolEvent.failed cid toolName
          (String.toList "Tool execution error: " ++ e)) := by
  refine ⟨?_, ?_, ?_, ?_⟩
  · cases uuid with
    | nil => exact absurd rfl hu
    | cons c rest =>
      simp [executeToolCall, hmiss, generateToolCallId]
  · simp [executeToolCall, hmiss]
  · exact ⟨String.toList "Tool ", String.toList ": " ++ toolName, rfl⟩
  · intro t f cid e ht hf
    simp [executeLocalTool, ht, hf]

/-- C8 witness: executing missing_tool on the empty registry with a
concrete UUID. -/
theorem C8_execute_not_found_witness :
    (executeToolCall [] (String.toList "0a1b2c3d-e4f5")
        (String.toList "missing_tool") []).1 ≠ [] ∧
    (executeToolCall [] (String.toList "0a1b2c3d-e4f5")
        (String.toList "missing_tool") []).2 =
      [ToolEvent.failed
        (executeToolCall [] (String.toList "0a1b2c3d-e4f5")
          (String.toList "missing_tool") []).1
        (String.toList "missing_tool")
        (notFoundMsg (String.toList "missing_tool"))] ∧
    String.toList "not found" <:+: notFoundMsg (String.toList "missing_tool") ∧
    (∀ (t : MCPTool) (f : Str → Except Str Str) (cid e : Str),
      t.function = some f → f [] = Except.error e →
      executeLocalTool t cid (String.toList "missing_tool") [] =
        ToolEvent.failed cid (String.toList "missing_tool")
          (String.toList "Tool execution error: " ++ e)) :=
  C8_execute_not_found [] (String.toList "0a1b2c3d-e4f5")
    (String.toList "missing_tool") [] rfl (by decide)

theorem discoveredTool_isValid (serverName serverUrl n d : Str)
    (hn : ¬n.isEmpty = true) (hu : serverUrl ≠ []) :
    (discoveredTool serverName serverUrl n d).isValid = true := by
  simp only [discoveredTool, MCPTool.isValid]
  rw [if_neg]
  · cases serverUrl with
    | nil => exact absurd rfl hu
    | cons a l => rfl
  · simp only [Bool.or_eq_true]
    rintro (h | h)
    · exact hn h
    · by_cases hd : d.isEmpty = true
      · rw [if_pos hd] at h
        rw [List.isEmpty_eq_true] at h
        exact absurd h (by simp)
      · rw [if_neg hd] at h
        exact hd h

theorem registerEntries_count (serverName serverUrl : Str)
    (hu : serverUrl ≠ []) (es : List ToolEntry) :
    ∀ reg : Registry,
      (registerEntries serverName serverUrl reg es).1 =
        es.countP fun e =>
          match e with
          | .entry n _ => !n.isEmpty
          | .notObject => false := by
  induction es with
  | nil => intro reg; rfl
  | cons e es ih =>
    intro reg
    cases e with
    | notObject =>
      simp only [registerEntries, List.countP_cons]
      rw [ih reg]
      simp
    | entry n d =>
      by_cases hn : n.isEmpty = true
      · simp only [registerEntries, List.countP_cons]
        rw [if_pos hn, ih reg]
        simp [hn]
      · have hv := discoveredTool_isValid serverName serverUrl n d hn hu
        have hr : (registerTool reg
            (discoveredTool serverName serverUrl n d)).1 = true := by
          simp only [registerTool]
          rw [if_pos hv]
        simp only [registerEntries]
        rw [if_neg hn]
        simp [hr, hn, ih]

theorem registerEntries_skip_empty (serverName serverUrl : Str) (d : Str)
    (es2 : List ToolEntry) :
    ∀ (es1 : List ToolEntry) (reg : Registry),
      registerEntries serverName serverUrl reg
          (es1 ++ ToolEntry.entry [] d :: es2) =
        registerEntries serverName serverUrl reg (es1 ++ es2) := by
  intro es1
  induction es1 with
  | nil =>
    intro reg
    show registerEntries serverName serverUrl reg
        (ToolEntry.entry [] d :: es2) =
      registerEntries serverName serverUrl reg es2
    simp only [registerEntries]
    rw [if_pos (show List.isEmpty ([] : Str) = true from rfl)]
  | cons e es1 ih =>
    intro reg
    cases e with
    | notObject =>
      show registerEntries serverName serverUrl reg
          (ToolEntry.notObject :: (es1 ++ ToolEntry.entry [] d :: es2)) =
        registerEntries serverName serverUrl reg
          (ToolEntry.notObject :: (es1 ++ es2))
      simp only [registerEntries]
      exact ih reg
    | entry n d2 =>
      show registerEntries serverName serverUrl reg
          (ToolEntry.entry n d2 :: (es1 ++ ToolEntry.entry [] d :: es2)) =
        registerEntries serverName serverUrl reg
          (ToolEntry.entry n d2 :: (es1 ++ es2))
      simp only [registerEntries]
      by_cases hn : n.isEmpty = true
      · rw [if_pos hn, if_pos hn]
        exact ih reg
      · rw [if_neg hn, if_neg hn,
          ih ((registerTool reg (discoveredTool serverName serverUrl n d2)).2)]

/-- C9: discovery returns -1 whenever either round-trip fails at the
transport level, yields an unparseable reply, or carries a JSON-RPC error
field; with both round-trips successful it returns the non-negative count
of registered tools — 0 when the server lists none, and (for a non-empty
server URL) exactly the number of listed object entries with a non-empty
name; a listed entry with an empty name is skipped without aborting
discovery or affecting the other entries. -/
theorem C9_discovery (serverName serverUrl : Str) (reg : Registry)
    (its tools : List ToolEntry) :
    (∀ r2 : MCPReply,
      discoverAndRegisterServerTools serverName serverUrl
        .transportError r2 reg = (-1, reg) ∧
      discoverAndRegisterServerTools serverName serverUrl
        .badJson r2 reg = (-1, reg) ∧
      discoverAndRegisterServerTools serverName serverUrl
        .rpcError r2 reg = (-1, reg)) ∧
    discoverAndRegisterServerTools serverName serverUrl (.ok its)
      .transportError reg = (-1, reg) ∧
    discoverAndRegisterServerTools serverName serverUrl (.ok its)
      .badJson reg = (-1, reg) ∧
    discoverAndRegisterServerTools serverName serverUrl (.ok its)
      .rpcError reg = (-1, reg) ∧
    discoverAndRegisterServerTools serverName serverUrl (.ok its)
      (.ok []) reg = (0, reg) ∧
    0 ≤ (discoverAndRegisterServerTools serverName serverUrl (.ok its)
      (.ok tools) reg).1 ∧
    (serverUrl ≠ [] →
      (discoverAndRegisterServerTools serverName serverUrl (.ok its)
          (.ok tools) reg).1 =
        (tools.countP fun e =>
          match e with
          | .entry n _ => !n.isEmpty
          | .notObject => false)) ∧
    (∀ (es1 es2 : List ToolEntry) (d : Str),
      discoverAndRegisterServerTools serverName serverUrl (.ok its)
        (.ok (es1 ++ ToolEntry.entry [] d :: es2)) reg =
      discoverAndRegisterServerTools serverName serverUrl (.ok its)
        (.ok (es1 ++ es2)) reg) := by
  refine ⟨fun r2 => ⟨rfl, rfl, rfl⟩, rfl, rfl, rfl, rfl, ?_, ?_, ?_⟩
  · simp only [discoverAndRegisterServerTools]
    split
    · exact le_refl 0
    · exact Int.natCast_nonneg _
  · intro hu
    simp only [discoverAndRegisterServerTools]
    split
    · next h =>
      rw [List.isEmpty_iff] at h
      simp [h]
    · rw [registerEntries_count serverName serverUrl hu tools reg]
  · intro es1 es2 d
    simp only [discoverAndRegisterServerTools]
    by_cases h2 : (es1 ++ es2).isEmpty = true
    · rw [List.isEmpty_iff, List.append_eq_nil] at h2
      obtain ⟨rfl, rfl⟩ := h2
      rfl
    · have h1 : ¬((es1 ++ ToolEntry.entry [] d :: es2).isEmpty = true) := by
        simp [List.isEmpty_iff]
      rw [if_neg h1, if_neg h2,
        registerEntries_skip_empty serverName serverUrl d es2 es1 reg]

/-- C9 witness: against a concrete server, a failed first round-trip
returns -1, an empty tools array returns 0, and the demonstration payload
registers exactly its two non-empty-name object entries. -/
theorem C9_discovery_witness :
    discoverAndRegisterServerTools (String.toList "srv")
      (String.toList "http://x") .transportError (.ok []) [] = (-1, []) ∧
    discoverAndRegisterServerTools (String.toList "srv")
      (String.toList "http://x") (.ok []) (.ok []) [] = (0, []) ∧
    (discoverAndRegisterServerTools (String.toList "srv")
        (String.toList "http://x") (.ok []) (.ok demoEntries) []).1 =
      (demoEntries.countP fun e =>
        match e with
        | .entry n _ => !n.isEmpty
        | .notObject => false) :=
  ⟨((C9_discovery (String.toList "srv") (String.toList "http://x") [] []
      []).1 (.ok [])).1,
   (C9_discovery (String.toList "srv") (String.toList "http://x") [] []
      []).2.2.2.2.1,
   (C9_discovery (String.toList "srv") (String.toList "http://x") [] []
      demoEntries).2.2.2.2.2.2.1 (by decide)⟩

/-- C1: chunking the four-character whitespace-free text aaaa with chunk
size 2 and overlap 2 never terminates: the window start stays at 0 on
every iteration (windowEnd is 2, the advance 2 - 2 = 0 is not negative,
so the clamp does not fire), and the loop guard 0 < 4 never falls, for
any number of iterations.  This refutes the claimed guarantee of strict
forward progress and of termination for positive overlap. -/
theorem C1_chunk_nontermination :
    ∀ fuel : Nat,
      chunkTextFuel 2 2 (List.replicate 4 'a') fuel 0 = none := by
  intro fuel
  induction fuel with
  | zero => decide
  | succ n ih =>
    show chunkTextFuel 2 2 (List.replicate 4 'a') (n + 1) 0 = none
    simp only [chunkTextFuel]
    rw [if_pos (by decide : 0 < (List.replicate 4 'a').length),
      (by decide : nextPosition 2 2 (List.replicate 4 'a') 0 = 0), ih]

end QtAgent
